import Mathlib

/-!
# TCP to serial bridge (`main.go`)

A shallow embedding of the connection supervisor of `main.go`:

* the body of the `for { select { ... } }` loop of `app.Action` (lines 81-126), split at
  the points where the supervisor goroutine communicates on a channel;
* the two producer goroutines `acceptFunc` (lines 136-150) and `readProc` (lines 152-162);
* the composition of the three over unbuffered channels, as a step function on a
  global state that carries the history of observable events;
* the port check at the head of `app.Action` (lines 53-61).

Results of calls into the operating system and the libraries (`listener.Accept`,
`src.Read`, `serial.OpenPort`, `serialPort.Write`, `currentConnection.Close`,
`net.Listen`) are inputs of the model.
-/

namespace TcpToSerial

/-! ## Data -/

/-- One octet of the forwarded stream. -/
abbrev Byte := Fin 256

/-- Identity of a `net.Conn` value. -/
abbrev Conn := Nat

/-- Identity of a `*serial.Port` value. -/
abbrev Port := Nat

/-- Identity of a `chan bool` made at line 88; the n-th channel made has identity n. -/
abbrev Chan := Nat

/-- A non-nil `error`, by its message. -/
abbrev Err := String

/-- The struct of lines 15-18. A nil `conn` or `err` is `none`. -/
structure acceptResult where
  conn : Option Conn
  err : Option Err
deriving DecidableEq, Repr

/-- The struct of lines 20-23. -/
structure readResult where
  bytesRead : Int
  err : Option Err
deriving DecidableEq, Repr

/-- Observable events of the program, in the order they happen. -/
inductive Ev where
  /-- Output of `log.Printf` or `log.Println` (without the final newline). -/
  | log (msg : String)
  /-- The call `log.Fatalf`: the message is written and the process exits with status 1. -/
  | fatal (msg : String)
  /-- A run-time panic. -/
  | panic (msg : String)
  /-- The call `listener.Accept()` of line 140 returned. -/
  | acceptReturn (r : acceptResult)
  /-- A value passed over `acceptChan` (line 144 to line 83). -/
  | acceptSend (r : acceptResult)
  /-- The value `true` passed over `acceptMore` (line 124 to line 146). -/
  | acceptMore
  /-- The call `serial.OpenPort` of line 91 returned this pair. -/
  | openPort (ret : Option Port × Option Err)
  /-- The statement `go readProc(...)` of line 94, with its source and continue channel. -/
  | goReadProc (src : Option Conn) (readMore : Chan)
  /-- The call `src.Read(buffer)` of line 154 returned in the reader that owns `readMore`,
  having stored `data` at the start of the buffer. -/
  | readReturn (readMore : Chan) (data : List Byte) (err : Option Err)
  /-- A value passed over `ipReadChan` (line 156 to line 98) by the reader that owns
  `readMore`. -/
  | readSend (readMore : Chan) (r : readResult)
  /-- The call `serialPort.Write(payload)` of line 103 returned this error. -/
  | serialWrite (port : Port) (payload : List Byte) (ret : Option Err)
  /-- The value `true` passed over the channel `readMore` (line 106 to line 158). -/
  | readMore (readMore : Chan)
  /-- The call `currentConnection.Close()` of line 115 returned this error. -/
  | close (conn : Conn) (ret : Option Err)
deriving DecidableEq, Repr

/-- The variables of lines 76-79, and the number of channels made so far at line 88. -/
structure Supervisor where
  currentConnection : Option Conn
  currentReadMore : Option Chan
  connectionError : Option Err
  serialError : Option Err
  serialPort : Option Port
  madeChans : Nat
deriving DecidableEq, Repr

/-- Where the supervisor goroutine stands. -/
inductive SupPC where
  /-- Blocked in the `select` of line 82. -/
  | select
  /-- Line 99: a read event has been received and is being handled. -/
  | readCase (r : readResult)
  /-- Blocked in the send of line 106. -/
  | sendReadMore
  /-- Blocked in the send of line 124. -/
  | sendAcceptMore
  /-- The process has exited through `log.Fatalf`. -/
  | exited
  /-- The process has died of a run-time panic. -/
  | panicked
deriving DecidableEq, Repr

/-! ## The supervisor loop body -/

/-- Lines 84-96, the `acceptResult` case of the `select`. `opened` is what
`serial.OpenPort` returns if it is called. -/
def acceptCase (s : Supervisor) (r : acceptResult) (opened : Option Port × Option Err) :
    Supervisor × List Ev :=
  match r.err with
  | some e => (s, [Ev.log ("Failed to accept the connection: " ++ e)])
  | none =>
    let ch := s.madeChans
    let s1 := { s with currentConnection := r.conn, currentReadMore := some ch,
                       madeChans := ch + 1 }
    let s2 := { s1 with serialPort := opened.1, serialError := opened.2 }
    match opened.2 with
    | some e => (s2, [Ev.openPort opened, Ev.log ("Failed to open serial port: " ++ e)])
    | none => (s2, [Ev.openPort opened, Ev.goReadProc r.conn ch])

/-- Lines 99-105, the `readResult` case of the `select` up to the send of line 106.
`buf` is `ip2serialBuffer`, `written` the error that `serialPort.Write` returns if it is
called. The assignment of line 101 comes after `log.Fatalf` and is never executed. In
line 104 the variable `err` is the one of line 58, which is nil there. -/
def readCase (s : Supervisor) (buf : List Byte) (r : readResult) (written : Option Err) :
    Supervisor × SupPC × List Ev :=
  match r.err with
  | some e => (s, SupPC.exited, [Ev.fatal ("Error reading from connection: " ++ e)])
  | none =>
    if r.bytesRead < 0 ∨ (buf.length : Int) < r.bytesRead then
      (s, SupPC.panicked, [Ev.panic "slice bounds out of range"])
    else
      match s.serialPort with
      | none => (s, SupPC.panicked, [Ev.panic "nil pointer dereference"])
      | some p =>
        let payload := buf.take r.bytesRead.toNat
        let s1 := { s with serialError := written }
        match written with
        | some _ =>
          (s1, SupPC.exited, [Ev.serialWrite p payload written,
            Ev.fatal "Error writing to serial port: %!s(<nil>)"])
        | none => (s1, SupPC.sendReadMore, [Ev.serialWrite p payload written])

/-- Lines 111-123, the block after the `select` up to the send of line 124. `closed` is
the error that `currentConnection.Close()` returns if it is called. The last component
tells whether the block was entered, that is whether line 124 is reached. -/
def teardown (s : Supervisor) (closed : Option Err) : Supervisor × List Ev × Bool :=
  if s.currentConnection.isSome && (s.connectionError.isSome || s.serialError.isSome) then
    let evs :=
      match s.currentConnection with
      | some c =>
        [Ev.log "Closing current connection...", Ev.close c closed,
          match closed with
          | some e => Ev.log ("Failed to close the current connection: " ++ e)
          | none => Ev.log "Current connection successfully closed."]
      | none => []
    ({ s with currentConnection := none, connectionError := none }, evs, true)
  else
    (s, [], false)

/-- The event taken by the `select` of line 82. -/
inductive Selected where
  | accept (r : acceptResult)
  | read (r : readResult)
deriving DecidableEq, Repr

/-- Results of the calls a loop iteration may make. -/
structure Env where
  opened : Option Port × Option Err
  written : Option Err
  closed : Option Err
deriving DecidableEq, Repr

/-- Result of one iteration of the loop. `pc` is `select` when the iteration reached the
end of the loop body, `exited` or `panicked` when the process ended inside it, and
`sendReadMore` when it blocks for ever sending on a nil channel. -/
structure Outcome where
  sup : Supervisor
  pc : SupPC
  events : List Ev
deriving DecidableEq, Repr

/-- Lines 111-125 as the tail of an iteration, the send of line 124 included. -/
def finishIteration (s : Supervisor) (evs : List Ev) (closed : Option Err) : Outcome :=
  let t := teardown s closed
  { sup := t.1, pc := SupPC.select,
    events := evs ++ t.2.1 ++ (if t.2.2 then [Ev.acceptMore] else []) }

/-- One iteration of the loop of lines 81-126, given the event the `select` takes. Sends
are taken to complete, as they do when the receiving goroutine waits for them. -/
def loopIteration (s : Supervisor) (buf : List Byte) (sel : Selected) (env : Env) : Outcome :=
  match sel with
  | Selected.accept r =>
    let a := acceptCase s r env.opened
    finishIteration a.1 a.2 env.closed
  | Selected.read r =>
    match readCase s buf r env.written with
    | (s1, SupPC.sendReadMore, e1) =>
      match s1.currentReadMore with
      | none => { sup := s1, pc := SupPC.sendReadMore, events := e1 }
      | some ch => finishIteration s1 (e1 ++ [Ev.readMore ch]) env.closed
    | (s1, pc, e1) => { sup := s1, pc := pc, events := e1 }

/-! ## The producer goroutines -/

/-- Where the goroutine `acceptFunc` stands. -/
inductive AccPC where
  /-- In `listener.Accept()`, line 140. -/
  | accepting
  /-- Blocked in the send of line 144. -/
  | sending (r : acceptResult)
  /-- Blocked in the receive of line 146. -/
  | waiting
  /-- Returned at line 147. -/
  | returned
deriving DecidableEq, Repr

/-- Where a goroutine `readProc` stands. -/
inductive ReadPC where
  /-- In `src.Read(buffer)`, line 154. -/
  | reading
  /-- Blocked in the send of line 156. -/
  | sending (r : readResult)
  /-- Blocked in the receive of line 158. -/
  | waiting
  /-- Returned at line 159. -/
  | returned
deriving DecidableEq, Repr

/-- Lines 146-148: `acceptFunc` after its receive on `acceptMore`; `ok` is false when the
channel is closed. -/
def acceptFunc_received (ok : Bool) : AccPC :=
  if !ok then AccPC.returned else AccPC.accepting

/-- Lines 158-160: `readProc` after its receive on `readMore`; `ok` is false when the
channel is closed. -/
def readProc_received (ok : Bool) : ReadPC :=
  if !ok then ReadPC.returned else ReadPC.reading

/-- What `listener.Accept()` returns: a connection, or an error. -/
inductive Accepted where
  | conn (c : Conn)
  | failed (e : Err)
deriving DecidableEq, Repr

/-- Line 144: the struct built from what `listener.Accept()` returned. -/
def Accepted.result : Accepted → acceptResult
  | Accepted.conn c => { conn := some c, err := none }
  | Accepted.failed e => { conn := none, err := some e }

/-- Line 154: the buffer after `src.Read(buffer)` has stored `data` at its start. -/
def readInto (buf data : List Byte) : List Byte :=
  data ++ buf.drop data.length

/-- A running instance of `readProc`, with its arguments `src` and `readMore`. -/
structure Reader where
  src : Option Conn
  readMore : Chan
  pc : ReadPC
deriving DecidableEq, Repr

/-! ## The composed system -/

/-- State of the process after line 73: the supervisor, the shared buffer, the acceptor,
the readers started so far, and the events so far (oldest first). -/
structure State where
  sup : Supervisor
  pc : SupPC
  ip2serialBuffer : List Byte
  acceptor : AccPC
  readers : List Reader
  trace : List Ev
deriving DecidableEq, Repr

/-- Line 72: the buffer made by `make([]byte, 1024)`. -/
def freshBuffer : List Byte := List.replicate 1024 0

/-- The state after line 79: all connection variables nil, a buffer of 1024 zero bytes,
the acceptor started at line 70. -/
def State.init : State :=
  { sup := { currentConnection := none, currentReadMore := none, connectionError := none,
             serialError := none, serialPort := none, madeChans := 0 },
    pc := SupPC.select,
    ip2serialBuffer := freshBuffer,
    acceptor := AccPC.accepting,
    readers := [],
    trace := [] }

/-- The process is alive. -/
def SupPC.live : SupPC → Bool
  | SupPC.exited => false
  | SupPC.panicked => false
  | _ => true

/-- The readers started by the `go` statements among the events. -/
def spawned (evs : List Ev) : List Reader :=
  evs.filterMap fun e =>
    match e with
    | Ev.goReadProc src ch => some { src := src, readMore := ch, pc := ReadPC.reading }
    | _ => none

/-- Lines 111-123 run by the supervisor of a state, which then blocks in the send of
line 124 if the block was entered, and in the `select` otherwise. -/
def State.afterTeardown (st : State) (closed : Option Err) : State :=
  let t := teardown st.sup closed
  { st with sup := t.1, pc := if t.2.2 then SupPC.sendAcceptMore else SupPC.select,
            trace := st.trace ++ t.2.1 }

/-- One move of one goroutine, with the results of the calls it makes. -/
inductive Input where
  /-- Lines 138-142: `listener.Accept()` returns in `acceptFunc`. -/
  | acceptReturns (ret : Accepted)
  /-- Lines 144 and 83-123: the `select` receives from `acceptChan`. -/
  | selectAccept (opened : Option Port × Option Err) (closed : Option Err)
  /-- Line 154: `src.Read(buffer)` returns in reader `i`, having read `data`. -/
  | readReturns (i : Nat) (data : List Byte) (err : Option Err)
  /-- Lines 156 and 98: the `select` receives from `ipReadChan`, reader `i` sending. -/
  | selectRead (i : Nat)
  /-- Lines 99-105: the supervisor handles the read event it received. -/
  | handleRead (written : Option Err)
  /-- Lines 106, 158 and 111-123: reader `i` receives from `currentReadMore`. -/
  | deliverReadMore (i : Nat) (closed : Option Err)
  /-- Lines 124 and 146: `acceptFunc` receives from `acceptMore`. -/
  | deliverAcceptMore
deriving DecidableEq, Repr

/-- The move `inp` from state `st`, or `none` when that move is not possible there. All
channels are unbuffered, so a send and its receive are one move. No goroutine moves once
the process has ended. `src.Read` stores at most `len(buffer)` bytes. -/
def step (st : State) (inp : Input) : Option State :=
  if !st.pc.live then none else
  match inp with
  | Input.acceptReturns ret =>
    match st.acceptor with
    | AccPC.accepting =>
      some { st with
        acceptor := AccPC.sending ret.result,
        trace := st.trace ++ [Ev.log "Waiting for connection...", Ev.acceptReturn ret.result,
                              Ev.log "Connection accepted"] }
    | _ => none
  | Input.selectAccept opened closed =>
    match st.pc, st.acceptor with
    | SupPC.select, AccPC.sending r =>
      let a := acceptCase st.sup r opened
      State.afterTeardown
        { st with sup := a.1, acceptor := AccPC.waiting,
                  readers := st.readers ++ spawned a.2,
                  trace := st.trace ++ [Ev.acceptSend r] ++ a.2 } closed
    | _, _ => none
  | Input.readReturns i data err =>
    match st.readers[i]? with
    | some rd =>
      match rd.pc, rd.src with
      | ReadPC.reading, none =>
        some { st with pc := SupPC.panicked,
                       trace := st.trace ++ [Ev.panic "nil pointer dereference"] }
      | ReadPC.reading, some _ =>
        if data.length ≤ st.ip2serialBuffer.length then
          let r : readResult := { bytesRead := data.length, err := err }
          some { st with
            ip2serialBuffer := readInto st.ip2serialBuffer data,
            readers := st.readers.set i { rd with pc := ReadPC.sending r },
            trace := st.trace ++ [Ev.readReturn rd.readMore data err] }
        else none
      | _, _ => none
    | none => none
  | Input.selectRead i =>
    match st.pc, st.readers[i]? with
    | SupPC.select, some rd =>
      match rd.pc with
      | ReadPC.sending r =>
        some { st with
          pc := SupPC.readCase r,
          readers := st.readers.set i { rd with pc := ReadPC.waiting },
          trace := st.trace ++ [Ev.readSend rd.readMore r] }
      | _ => none
    | _, _ => none
  | Input.handleRead written =>
    match st.pc with
    | SupPC.readCase r =>
      let h := readCase st.sup st.ip2serialBuffer r written
      some { st with sup := h.1, pc := h.2.1, trace := st.trace ++ h.2.2 }
    | _ => none
  | Input.deliverReadMore i closed =>
    match st.pc, st.sup.currentReadMore, st.readers[i]? with
    | SupPC.sendReadMore, some ch, some rd =>
      if rd.readMore = ch ∧ rd.pc = ReadPC.waiting then
        State.afterTeardown
          { st with readers := st.readers.set i { rd with pc := readProc_received true },
                    trace := st.trace ++ [Ev.readMore ch] } closed
      else none
    | _, _, _ => none
  | Input.deliverAcceptMore =>
    match st.pc, st.acceptor with
    | SupPC.sendAcceptMore, AccPC.waiting =>
      some { st with pc := SupPC.select, acceptor := acceptFunc_received true,
                     trace := st.trace ++ [Ev.acceptMore] }
    | _, _ => none

/-- The moves of a list, one after the other; `none` if one of them is not possible. -/
def run (st : State) : List Input → Option State
  | [] => some st
  | inp :: rest => (step st inp).bind fun st1 => run st1 rest

/-- The states the process can be in: those some sequence of moves leads to from the
initial state. -/
def Reachable (st : State) : Prop :=
  ∃ inps : List Input, run State.init inps = some st

/-! ## The head of `app.Action` -/

/-- What `app.Action` did before the loop: the addresses passed to `net.Listen`, the error
it returned if it returned, and whether it went on to the loop of line 81. -/
structure ActionOutcome where
  listened : List String
  returned : Option String
  serving : Bool
deriving DecidableEq, Repr

/-- Lines 53-61 of `app.Action`: the port check and the call of `net.Listen`, whose error
for an address is given by `listen`. -/
def appAction (port : Int) (listen : String → Option Err) : ActionOutcome :=
  if port < 1 ∨ port > 65535 then
    { listened := [], returned := some ("Invalid port number: " ++ toString port),
      serving := false }
  else
    let addr := ":" ++ toString port
    match listen addr with
    | some e =>
      { listened := [addr], returned := some ("Can not listen on TCP port: " ++ e),
        serving := false }
    | none => { listened := [addr], returned := none, serving := true }


/-! ## Reading the events of an iteration -/

/-- The event is a `go readProc(...)` statement. -/
def Ev.isGo : Ev → Bool
  | Ev.goReadProc _ _ => true
  | _ => false

/-- The event is a call of `Close` on a connection. -/
def Ev.isClose : Ev → Bool
  | Ev.close _ _ => true
  | _ => false

/-- The event ends the process. -/
def Ev.isFatal : Ev → Bool
  | Ev.fatal _ => true
  | Ev.panic _ => true
  | _ => false

/-- The payloads of the serial writes among the events, in order. -/
def serialPayloads (evs : List Ev) : List (List Byte) :=
  evs.filterMap fun e =>
    match e with
    | Ev.serialWrite _ payload _ => some payload
    | _ => none

/-- The byte chunks stored by the reads among the events, in order. -/
def readChunks (evs : List Ev) : List (List Byte) :=
  evs.filterMap fun e =>
    match e with
    | Ev.readReturn _ data _ => some data
    | _ => none

/-! ## Reading the hand-off protocol off a history -/

/-- The list is `i % k, (i+1) % k, (i+2) % k, ...`: rounds of `k` phases, taken in order,
begun at phase `i` and possibly cut short. -/
def roundsFrom (k : Nat) : Nat → List Nat → Bool
  | _, [] => true
  | i, t :: l => t == i % k && roundsFrom k (i + 1) l

/-- Phases of the acceptor's round: 0 `listener.Accept()` returns, 1 the accept event
passes over `acceptChan`, 2 the grant passes over `acceptMore`. -/
def accTag : Ev → Option Nat
  | Ev.acceptReturn _ => some 0
  | Ev.acceptSend _ => some 1
  | Ev.acceptMore => some 2
  | _ => none

/-- Phases of the round of the reader that owns the channel `ch`: 0 `src.Read` returns,
1 the read event passes over `ipReadChan`, 2 the grant passes over `ch`. -/
def readTag (ch : Chan) : Ev → Option Nat
  | Ev.readReturn c _ _ => if c = ch then some 0 else none
  | Ev.readSend c _ => if c = ch then some 1 else none
  | Ev.readMore c => if c = ch then some 2 else none
  | _ => none

/-- Phases of the life of the shared buffer: 0 a reader's `src.Read` returns (the buffer
has been written), 1 the read event passes to the supervisor, 2 `serialPort.Write`
returns without error (the buffer has been consumed), 3 the supervisor grants a reader
the next read. -/
def bufTag : Ev → Option Nat
  | Ev.readReturn _ _ _ => some 0
  | Ev.readSend _ _ => some 1
  | Ev.serialWrite _ _ none => some 2
  | Ev.readMore _ => some 3
  | _ => none

/-- The acceptor's phases in a history. -/
def accTags (evs : List Ev) : List Nat := evs.filterMap accTag

/-- The phases of the reader that owns `ch` in a history. -/
def readTags (ch : Chan) (evs : List Ev) : List Nat := evs.filterMap (readTag ch)

/-- The shared buffer's phases in a history. -/
def bufTags (evs : List Ev) : List Nat := evs.filterMap bufTag

/-- Phase at which the acceptor stands. -/
def AccPC.phase : AccPC → Nat
  | AccPC.accepting => 0
  | AccPC.sending _ => 1
  | AccPC.waiting => 2
  | AccPC.returned => 3


/-! ## Rounds of forwarding -/

/-- The moves of one round of forwarding through reader 0: its `src.Read` returns `data`
without an error, the supervisor receives the read event, the serial write returns
without an error, and the reader receives its grant. -/
def forwardRound (data : List Byte) : List Input :=
  [Input.readReturns 0 data none, Input.selectRead 0, Input.handleRead none,
   Input.deliverReadMore 0 none]

/-- The events of one round of forwarding of `data`, for the reader that owns `ch` and the
serial port `p`. -/
def roundEvents (ch : Chan) (p : Port) (data : List Byte) : List Ev :=
  [Ev.readReturn ch data none, Ev.readSend ch { bytesRead := data.length, err := none },
   Ev.serialWrite p data none, Ev.readMore ch]

/-- The moves of one round after the other, one round for each chunk. -/
def forwardRounds : List (List Byte) → List Input
  | [] => []
  | data :: rest => forwardRound data ++ forwardRounds rest

/-- The events of one round after the other, one round for each chunk. -/
def roundsEvents (ch : Chan) (p : Port) : List (List Byte) → List Ev
  | [] => []
  | data :: rest => roundEvents ch p data ++ roundsEvents ch p rest

/-! ## Two states of the process -/

/-- The moves that lead to `State.active`: a client connects and the serial port opens. -/
def toActive : List Input :=
  [Input.acceptReturns (Accepted.conn 7), Input.selectAccept (some 3, none) none]

/-- The state once connection 7 has been accepted and the serial port 3 opened for it. -/
def State.active : State :=
  { sup := { currentConnection := some 7, currentReadMore := some 0, connectionError := none,
             serialError := none, serialPort := some 3, madeChans := 1 },
    pc := SupPC.select,
    ip2serialBuffer := freshBuffer,
    acceptor := AccPC.waiting,
    readers := [{ src := some 7, readMore := 0, pc := ReadPC.reading }],
    trace := [Ev.log "Waiting for connection...",
              Ev.acceptReturn { conn := some 7, err := none },
              Ev.log "Connection accepted",
              Ev.acceptSend { conn := some 7, err := none },
              Ev.openPort (some 3, none),
              Ev.goReadProc (some 7) 0] }

/-- The moves that lead to `State.retry`: a client connects while the serial device is
busy, is turned away, and a second client connects. -/
def toRetry : List Input :=
  [Input.acceptReturns (Accepted.conn 1), Input.selectAccept (none, some "busy") none,
   Input.deliverAcceptMore, Input.acceptReturns (Accepted.conn 2)]

/-- The state in which connection 2 is offered to the supervisor after connection 1 was
closed because the serial port could not be opened. -/
def State.retry : State :=
  { sup := { currentConnection := none, currentReadMore := some 0, connectionError := none,
             serialError := some "busy", serialPort := none, madeChans := 1 },
    pc := SupPC.select,
    ip2serialBuffer := freshBuffer,
    acceptor := AccPC.sending { conn := some 2, err := none },
    readers := [],
    trace := [Ev.log "Waiting for connection...",
              Ev.acceptReturn { conn := some 1, err := none },
              Ev.log "Connection accepted",
              Ev.acceptSend { conn := some 1, err := none },
              Ev.openPort (none, some "busy"),
              Ev.log "Failed to open serial port: busy",
              Ev.log "Closing current connection...",
              Ev.close 1 none,
              Ev.log "Current connection successfully closed.",
              Ev.acceptMore,
              Ev.log "Waiting for connection...",
              Ev.acceptReturn { conn := some 2, err := none },
              Ev.log "Connection accepted"] }

/-! ## The invariant of the composed system -/

/-- The event is not a call of `serial.OpenPort` that returned a nil port without an
error, or a port together with an error. -/
def Ev.openedWell : Ev → Bool
  | Ev.openPort ret => ret.1.isNone == ret.2.isSome
  | _ => true

/-- Every call of `serial.OpenPort` in the history returned a nil port exactly when it
returned an error. -/
def OpensWell (evs : List Ev) : Prop := evs.all Ev.openedWell = true

/-- The positions at which the supervisor and the one reader stand together while a
connection is active, with the number `b` of buffer phases and the number `r` of phases
of that reader passed so far. -/
def ActivePhase (pc : SupPC) (rpc : ReadPC) (b r : Nat) : Prop :=
  (pc = SupPC.select ∧ rpc = ReadPC.reading ∧ b % 4 = 0 ∧ r % 3 = 0)
  ∨ (pc = SupPC.select ∧ (∃ x, rpc = ReadPC.sending x) ∧ b % 4 = 1 ∧ r % 3 = 1)
  ∨ ((∃ x, pc = SupPC.readCase x) ∧ rpc = ReadPC.waiting ∧ b % 4 = 2 ∧ r % 3 = 2)
  ∨ (pc = SupPC.sendReadMore ∧ rpc = ReadPC.waiting ∧ b % 4 = 3 ∧ r % 3 = 2)
  ∨ ((pc = SupPC.exited ∨ pc = SupPC.panicked) ∧ rpc = ReadPC.waiting ∧ b % 4 = 2 ∧ r % 3 = 2)

/-- No connection is active: no reader was ever started, and the supervisor is in the
`select` or hands the acceptor its grant. -/
def IdleMode (st : State) : Prop :=
  st.sup.currentConnection = none ∧ st.readers = []
  ∧ (st.pc = SupPC.select ∨ (st.pc = SupPC.sendAcceptMore ∧ st.acceptor = AccPC.waiting))
  ∧ (∀ ch, readTags ch st.trace = []) ∧ bufTags st.trace = []

/-- A connection is active: it is the source of the one reader, which owns
`currentReadMore`; the acceptor waits for its grant. -/
def ActiveMode (st : State) : Prop :=
  ∃ c ch rpc,
    st.sup.currentConnection = some c ∧ st.sup.currentReadMore = some ch
    ∧ st.readers = [{ src := some c, readMore := ch, pc := rpc }]
    ∧ st.acceptor = AccPC.waiting
    ∧ (∀ ch1, ch1 ≠ ch → readTags ch1 st.trace = [])
    ∧ roundsFrom 3 0 (readTags ch st.trace) = true
    ∧ ActivePhase st.pc rpc (bufTags st.trace).length (readTags ch st.trace).length
    ∧ (st.pc ≠ SupPC.exited → st.sup.serialError = none)

/-- What holds in every state of the process. -/
structure Inv (st : State) : Prop where
  connErr : st.sup.connectionError = none
  chanBound : ∀ ch, st.sup.currentReadMore = some ch → ch < st.sup.madeChans
  accRounds : roundsFrom 3 0 (accTags st.trace) = true
  accPhase : (accTags st.trace).length % 3 = st.acceptor.phase
  accResult : ∀ r, st.acceptor = AccPC.sending r → ∃ ret : Accepted, r = ret.result
  bufRounds : roundsFrom 4 0 (bufTags st.trace) = true
  closes : st.trace.countP Ev.isClose
    = st.trace.count Ev.acceptMore + (if st.pc = SupPC.sendAcceptMore then 1 else 0)
  port : OpensWell st.trace → st.sup.serialPort.isSome = st.sup.currentConnection.isSome
  mode : IdleMode st ∨ ActiveMode st

/-! ## Lemmas on rounds and histories -/

/-- Rounds over a concatenation: the second part goes on from where the first stopped. -/
theorem roundsFrom_append (k i : Nat) (l m : List Nat) :
    roundsFrom k i (l ++ m) = (roundsFrom k i l && roundsFrom k (i + l.length) m) := by
  induction l generalizing i with
  | nil => simp [roundsFrom]
  | cons t l ih =>
    have e : i + 1 + l.length = i + (l.length + 1) := by omega
    show (t == i % k && roundsFrom k (i + 1) (l ++ m))
      = (t == i % k && roundsFrom k (i + 1) l && roundsFrom k (i + (l.length + 1)) m)
    rw [ih, e, Bool.and_assoc]

/-- Rounds begun at phase 0 go on with one more phase exactly when it is the next one. -/
theorem roundsFrom_concat (k : Nat) (l : List Nat) (t : Nat) :
    roundsFrom k 0 (l ++ [t]) = (roundsFrom k 0 l && (t == l.length % k)) := by
  rw [roundsFrom_append]
  simp [roundsFrom]

/-- The acceptor's phases of a history, event by event. -/
theorem accTags_cons (e : Ev) (l : List Ev) :
    accTags (e :: l) = (accTag e).toList ++ accTags l := by
  cases h : accTag e <;> simp [accTags, List.filterMap_cons, h]

/-- A reader's phases of a history, event by event. -/
theorem readTags_cons (ch : Chan) (e : Ev) (l : List Ev) :
    readTags ch (e :: l) = (readTag ch e).toList ++ readTags ch l := by
  cases h : readTag ch e <;> simp [readTags, List.filterMap_cons, h]

/-- The buffer's phases of a history, event by event. -/
theorem bufTags_cons (e : Ev) (l : List Ev) :
    bufTags (e :: l) = (bufTag e).toList ++ bufTags l := by
  cases h : bufTag e <;> simp [bufTags, List.filterMap_cons, h]

/-- Calls of `serial.OpenPort` that are well behaved in a history are so in its beginning. -/
theorem OpensWell.left {a b : List Ev} (h : OpensWell (a ++ b)) : OpensWell a := by
  simp only [OpensWell, List.all_append, Bool.and_eq_true] at h
  exact h.1

/-- The empty history has no acceptor phase. -/
@[simp] theorem accTags_nil : accTags [] = [] := rfl

/-- The empty history has no reader phase. -/
@[simp] theorem readTags_nil (ch : Chan) : readTags ch [] = [] := rfl

/-- The empty history has no buffer phase. -/
@[simp] theorem bufTags_nil : bufTags [] = [] := rfl

/-- The acceptor's phases of a concatenation. -/
@[simp] theorem accTags_append (a b : List Ev) : accTags (a ++ b) = accTags a ++ accTags b := by
  simp [accTags]

/-- A reader's phases of a concatenation. -/
@[simp] theorem readTags_append (ch : Chan) (a b : List Ev) :
    readTags ch (a ++ b) = readTags ch a ++ readTags ch b := by
  simp [readTags]

/-- The buffer's phases of a concatenation. -/
@[simp] theorem bufTags_append (a b : List Ev) : bufTags (a ++ b) = bufTags a ++ bufTags b := by
  simp [bufTags]

/-! ## The invariant holds in every reachable state -/

/-- The invariant holds in the initial state. -/
theorem Inv.init : Inv State.init := by
  refine ⟨rfl, ?_, rfl, rfl, ?_, rfl, rfl, fun _ => rfl, Or.inl ?_⟩
  · intro ch h
    cases h
  · intro r h
    cases h
  · exact ⟨rfl, rfl, Or.inl rfl, fun _ => rfl, rfl⟩

/-- The invariant is kept when `listener.Accept()` returns. -/
theorem Inv.acceptReturns {st st1 : State} {ret : Accepted} (hinv : Inv st)
    (hstep : step st (Input.acceptReturns ret) = some st1) : Inv st1 := by
  obtain ⟨sup, pc, buf, acc, readers, trace⟩ := st
  obtain ⟨h1, h2, h3, h4, h5, h6, h7, h9, h8⟩ := hinv
  simp only [step] at hstep
  split at hstep
  · simp at hstep
  · split at hstep
    · rename_i hacc
      simp only [Option.some.injEq] at hstep
      subst hstep
      simp only at h1 h2 h3 h4 h5 h6 h7 h8 h9 ⊢
      simp only [AccPC.phase] at h4
      refine ⟨h1, h2, ?_, ?_, ?_, ?_, ?_, fun hw => h9 hw.left, ?_⟩
      · simp [accTags_cons, accTag, roundsFrom_concat, h3, h4]
      · simp [accTags_cons, accTag, AccPC.phase]
        omega
      · intro r hr
        simp only [AccPC.sending.injEq] at hr
        exact ⟨ret, hr.symm⟩
      · simpa [bufTags_cons, bufTag] using h6
      · simpa [Ev.isClose, List.countP_cons, List.count_cons] using h7
      · rcases h8 with h8 | h8
        · left
          obtain ⟨a, b, c, d, e⟩ := h8
          refine ⟨a, b, ?_, ?_, ?_⟩
          · simp only at c ⊢
            rcases c with c | c
            · exact Or.inl c
            · simp at c
          · intro ch
            simpa [readTags_cons, readTag] using d ch
          · simpa [bufTags_cons, bufTag] using e
        · obtain ⟨c, ch, rpc, a1, a2, a3, a4, a5, a6, a7, a8⟩ := h8
          simp at a4
    · simp at hstep

/-- The invariant is kept when the supervisor receives an accept event. -/
theorem Inv.selectAccept {st st1 : State} {opened : Option Port × Option Err}
    {closed : Option Err} (hinv : Inv st)
    (hstep : step st (Input.selectAccept opened closed) = some st1) : Inv st1 := by
  obtain ⟨sup, pc, buf, acc, readers, trace⟩ := st
  obtain ⟨cc, crm, ce, se, sp, mc⟩ := sup
  obtain ⟨h1, h2, h3, h4, h5, h6, h7, h9, h8⟩ := hinv
  simp only [step] at hstep
  split at hstep
  · simp at hstep
  · split at hstep
    · rename_i r hlive
      simp only [Option.some.injEq] at hstep
      subst hstep
      simp only at h1 h2 h3 h4 h5 h6 h7 h8 h9 ⊢
      obtain ⟨ret, rfl⟩ := h5 r rfl
      rcases h8 with h8 | h8
      · obtain ⟨m1, m2, m3, m4, m5⟩ := h8
        simp only at m1 m2 m3 m4 m5
        subst m1 m2 h1
        obtain ⟨op, oe⟩ := opened
        simp only [AccPC.phase] at h4
        simp at h7
        simp [OpensWell, Ev.openedWell] at h9
        cases ret with
        | failed err =>
          refine ⟨?_, ?_, ?_, ?_, ?_, ?_, ?_, ?_, ?_⟩ <;>
            (try simp [State.afterTeardown, acceptCase, teardown, Accepted.result, spawned,
              accTags_cons, accTag, bufTags_cons, bufTag, readTags_cons, readTag, roundsFrom,
              roundsFrom_concat, AccPC.phase, Ev.isClose, List.countP_cons, List.count_cons,
              IdleMode, ActiveMode, OpensWell, Ev.openedWell, h3, h4, h6, h7, m4, m5]) <;>
            (try omega) <;> (try assumption)
        | conn c =>
          cases oe with
          | some e =>
            cases closed <;>
            refine ⟨?_, ?_, ?_, ?_, ?_, ?_, ?_, ?_, ?_⟩ <;>
              (try simp [State.afterTeardown, acceptCase, teardown, Accepted.result, spawned,
                accTags_cons, accTag, bufTags_cons, bufTag, readTags_cons, readTag, roundsFrom,
                roundsFrom_concat, AccPC.phase, Ev.isClose, List.countP_cons, List.count_cons,
                IdleMode, ActiveMode, OpensWell, Ev.openedWell, h3, h4, h6, h7, m4, m5]) <;>
              (try omega)
          | none =>
            refine ⟨?_, ?_, ?_, ?_, ?_, ?_, ?_, ?_, ?_⟩ <;>
              (try simp [State.afterTeardown, acceptCase, teardown, Accepted.result, spawned,
                accTags_cons, accTag, bufTags_cons, bufTag, readTags_cons, readTag, roundsFrom,
                roundsFrom_concat, AccPC.phase, Ev.isClose, List.countP_cons, List.count_cons,
                IdleMode, ActiveMode, OpensWell, Ev.openedWell, ActivePhase, h3, h4, h6, h7, m4,
                m5])
            omega
      · obtain ⟨c, ch, rpc, a1, a2, a3, a4, a5, a6, a7, a8⟩ := h8
        simp at a4
    · simp at hstep

/-- The invariant is kept when `src.Read` returns. -/
theorem Inv.readReturns {st st1 : State} {i : Nat} {data : List Byte} {err : Option Err}
    (hinv : Inv st) (hstep : step st (Input.readReturns i data err) = some st1) : Inv st1 := by
  obtain ⟨sup, pc, buf, acc, readers, trace⟩ := st
  obtain ⟨cc, crm, ce, se, sp, mc⟩ := sup
  obtain ⟨h1, h2, h3, h4, h5, h6, h7, h9, h8⟩ := hinv
  simp only at h1 h2 h3 h4 h5 h6 h7 h9
  rcases h8 with h8 | h8
  · obtain ⟨m1, m2, m3, m4, m5⟩ := h8
    simp only at m1 m2 m3 m4 m5
    subst m2
    simp [step] at hstep
  · obtain ⟨c, ch, rpc, a1, a2, a3, a4, a5, a6, a7, a8⟩ := h8
    simp only at a1 a2 a3 a4 a5 a6 a7 a8
    subst a1 a2 a3 a4 h1
    cases i with
    | succ j => simp [step] at hstep
    | zero =>
      simp only [step, List.getElem?_cons_zero] at hstep
      split at hstep
      · simp at hstep
      · cases rpc with
        | reading =>
          simp only [ActivePhase] at a7
          simp at hstep
          obtain ⟨hlen, rfl⟩ := hstep
          simp at a7
          obtain ⟨rfl, b4, r3⟩ := a7
          have hse := a8 (by simp)
          have hch := h2 ch rfl
          refine ⟨?_, ?_, ?_, ?_, ?_, ?_, ?_, fun hw => h9 hw.left, ?_⟩ <;>
            (try simp [accTags_cons, accTag, bufTags_cons, bufTag, readTags_cons, readTag,
              roundsFrom, roundsFrom_concat, AccPC.phase, Ev.isClose, List.countP_cons,
              List.count_cons, IdleMode, ActiveMode, ActivePhase, h3, h4, h6, h7, a5, a6,
              b4, r3, hse, hch])
          refine ⟨fun ch1 hne => ⟨a5 ch1 hne, by simp [Ne.symm hne]⟩, by omega⟩
        | sending r => simp at hstep
        | waiting => simp at hstep
        | returned => simp at hstep

/-- The invariant is kept when the supervisor receives a read event. -/
theorem Inv.selectRead {st st1 : State} {i : Nat} (hinv : Inv st)
    (hstep : step st (Input.selectRead i) = some st1) : Inv st1 := by
  obtain ⟨sup, pc, buf, acc, readers, trace⟩ := st
  obtain ⟨cc, crm, ce, se, sp, mc⟩ := sup
  obtain ⟨h1, h2, h3, h4, h5, h6, h7, h9, h8⟩ := hinv
  simp only at h1 h2 h3 h4 h5 h6 h7 h9
  rcases h8 with h8 | h8
  · obtain ⟨m1, m2, m3, m4, m5⟩ := h8
    simp only at m1 m2 m3 m4 m5
    subst m2
    simp [step] at hstep
  · obtain ⟨c, ch, rpc, a1, a2, a3, a4, a5, a6, a7, a8⟩ := h8
    simp only at a1 a2 a3 a4 a5 a6 a7 a8
    subst a1 a2 a3 a4 h1
    cases i with
    | succ j => simp [step] at hstep
    | zero =>
      cases rpc with
      | sending r =>
        simp [ActivePhase] at a7
        obtain ⟨rfl, b4, r3⟩ := a7
        simp [step, SupPC.live] at hstep
        subst hstep
        have hse := a8 (by simp)
        have hch := h2 ch rfl
        refine ⟨?_, ?_, ?_, ?_, ?_, ?_, ?_, fun hw => h9 hw.left, ?_⟩ <;>
          (try simp [accTags_cons, accTag, bufTags_cons, bufTag, readTags_cons, readTag,
              roundsFrom, roundsFrom_concat, AccPC.phase, Ev.isClose, List.countP_cons,
              List.count_cons, IdleMode, ActiveMode, ActivePhase, h3, h4, h6, h7, a5, a6,
              b4, r3, hse, hch])
        refine ⟨fun ch1 hne => ⟨a5 ch1 hne, by simp [Ne.symm hne]⟩, by omega⟩
      | reading => cases pc <;> simp [step] at hstep
      | waiting => cases pc <;> simp [step] at hstep
      | returned => cases pc <;> simp [step] at hstep

/-- The invariant is kept when the supervisor handles a read event. -/
theorem Inv.handleRead {st st1 : State} {written : Option Err} (hinv : Inv st)
    (hstep : step st (Input.handleRead written) = some st1) : Inv st1 := by
  obtain ⟨sup, pc, buf, acc, readers, trace⟩ := st
  obtain ⟨cc, crm, ce, se, sp, mc⟩ := sup
  obtain ⟨h1, h2, h3, h4, h5, h6, h7, h9, h8⟩ := hinv
  simp only at h1 h2 h3 h4 h5 h6 h7 h9
  cases pc with
  | readCase r =>
    rcases h8 with h8 | h8
    · obtain ⟨m1, m2, m3, m4, m5⟩ := h8
      simp at m3
    · obtain ⟨c, ch, rpc, a1, a2, a3, a4, a5, a6, a7, a8⟩ := h8
      simp only at a1 a2 a3 a4 a5 a6 a7 a8
      subst a1 a2 a3 a4 h1
      simp [ActivePhase] at a7
      obtain ⟨rfl, b4, r3⟩ := a7
      have hse := a8 (by simp)
      subst hse
      have hch := h2 ch rfl
      simp [step, SupPC.live] at hstep
      subst hstep
      obtain ⟨n, rerr⟩ := r
      simp at h7
      cases rerr with
      | some e =>
        simp only [readCase]
        refine ⟨?_, ?_, ?_, ?_, ?_, ?_, ?_, fun hw => h9 hw.left, ?_⟩ <;>
          (try simp [accTags_cons, accTag, bufTags_cons, bufTag, readTags_cons, readTag,
              roundsFrom, roundsFrom_concat, AccPC.phase, Ev.isClose, List.countP_cons,
              List.count_cons, IdleMode, ActiveMode, ActivePhase, h3, h4, h6, h7, a5, a6,
              b4, r3, hch])
        exact a5
      | none =>
        by_cases hb : n < 0 ∨ (buf.length : Int) < n
        · simp only [readCase, hb, if_true]
          refine ⟨?_, ?_, ?_, ?_, ?_, ?_, ?_, fun hw => h9 hw.left, ?_⟩ <;>
          (try simp [accTags_cons, accTag, bufTags_cons, bufTag, readTags_cons, readTag,
              roundsFrom, roundsFrom_concat, AccPC.phase, Ev.isClose, List.countP_cons,
              List.count_cons, IdleMode, ActiveMode, ActivePhase, h3, h4, h6, h7, a5, a6,
              b4, r3, hch])
          exact a5
        · cases sp with
          | none =>
            simp only [readCase, hb, if_false]
            refine ⟨?_, ?_, ?_, ?_, ?_, ?_, ?_, fun hw => h9 hw.left, ?_⟩ <;>
          (try simp [accTags_cons, accTag, bufTags_cons, bufTag, readTags_cons, readTag,
              roundsFrom, roundsFrom_concat, AccPC.phase, Ev.isClose, List.countP_cons,
              List.count_cons, IdleMode, ActiveMode, ActivePhase, h3, h4, h6, h7, a5, a6,
              b4, r3, hch])
            exact a5
          | some p =>
            cases written with
            | some e =>
              simp only [readCase, hb, if_false]
              refine ⟨?_, ?_, ?_, ?_, ?_, ?_, ?_, fun hw => h9 hw.left, ?_⟩ <;>
          (try simp [accTags_cons, accTag, bufTags_cons, bufTag, readTags_cons, readTag,
              roundsFrom, roundsFrom_concat, AccPC.phase, Ev.isClose, List.countP_cons,
              List.count_cons, IdleMode, ActiveMode, ActivePhase, h3, h4, h6, h7, a5, a6,
              b4, r3, hch])
              exact a5
            | none =>
              simp only [readCase, hb, if_false]
              refine ⟨?_, ?_, ?_, ?_, ?_, ?_, ?_, fun hw => h9 hw.left, ?_⟩ <;>
          (try simp [accTags_cons, accTag, bufTags_cons, bufTag, readTags_cons, readTag,
              roundsFrom, roundsFrom_concat, AccPC.phase, Ev.isClose, List.countP_cons,
              List.count_cons, IdleMode, ActiveMode, ActivePhase, h3, h4, h6, h7, a5, a6,
              b4, r3, hch])
              exact ⟨a5, by omega⟩
  | select => simp [step] at hstep
  | sendReadMore => simp [step] at hstep
  | sendAcceptMore => simp [step] at hstep
  | exited => simp [step] at hstep
  | panicked => simp [step] at hstep

/-- The invariant is kept when a reader receives its grant. -/
theorem Inv.deliverReadMore {st st1 : State} {i : Nat} {closed : Option Err} (hinv : Inv st)
    (hstep : step st (Input.deliverReadMore i closed) = some st1) : Inv st1 := by
  obtain ⟨sup, pc, buf, acc, readers, trace⟩ := st
  obtain ⟨cc, crm, ce, se, sp, mc⟩ := sup
  obtain ⟨h1, h2, h3, h4, h5, h6, h7, h9, h8⟩ := hinv
  simp only at h1 h2 h3 h4 h5 h6 h7 h9
  cases pc with
  | sendReadMore =>
    rcases h8 with h8 | h8
    · obtain ⟨m1, m2, m3, m4, m5⟩ := h8
      simp at m3
    · obtain ⟨c, ch, rpc, a1, a2, a3, a4, a5, a6, a7, a8⟩ := h8
      simp only at a1 a2 a3 a4 a5 a6 a7 a8
      subst a1 a2 a3 a4 h1
      simp [ActivePhase] at a7
      obtain ⟨rfl, b4, r3⟩ := a7
      have hse := a8 (by simp)
      subst hse
      have hch := h2 ch rfl
      simp at h7
      cases i with
      | succ j => simp [step] at hstep
      | zero =>
        simp [step, SupPC.live, State.afterTeardown, teardown, readProc_received] at hstep
        subst hstep
        refine ⟨?_, ?_, ?_, ?_, ?_, ?_, ?_, fun hw => h9 hw.left, ?_⟩ <;>
          (try simp [accTags_cons, accTag, bufTags_cons, bufTag, readTags_cons, readTag,
              roundsFrom, roundsFrom_concat, AccPC.phase, Ev.isClose, List.countP_cons,
              List.count_cons, IdleMode, ActiveMode, ActivePhase, h3, h4, h6, h7, a5, a6,
              b4, r3, hch])
        exact ⟨fun ch1 hne => ⟨a5 ch1 hne, by simp [Ne.symm hne]⟩, by omega, by omega⟩
  | select => simp [step] at hstep
  | readCase r => simp [step] at hstep
  | sendAcceptMore => simp [step] at hstep
  | exited => simp [step] at hstep
  | panicked => simp [step] at hstep

/-- The invariant is kept when the acceptor receives its grant. -/
theorem Inv.deliverAcceptMore {st st1 : State} (hinv : Inv st)
    (hstep : step st Input.deliverAcceptMore = some st1) : Inv st1 := by
  obtain ⟨sup, pc, buf, acc, readers, trace⟩ := st
  obtain ⟨cc, crm, ce, se, sp, mc⟩ := sup
  obtain ⟨h1, h2, h3, h4, h5, h6, h7, h9, h8⟩ := hinv
  simp only at h1 h2 h3 h4 h5 h6 h7 h9
  cases pc with
  | sendAcceptMore =>
    rcases h8 with h8 | h8
    · obtain ⟨m1, m2, m3, m4, m5⟩ := h8
      simp only at m1 m2 m3 m4 m5
      simp at m3
      subst m1 m2 m3 h1
      simp [AccPC.phase] at h4
      simp at h7
      simp [step, SupPC.live, acceptFunc_received] at hstep
      subst hstep
      refine ⟨?_, ?_, ?_, ?_, ?_, ?_, ?_, fun hw => h9 hw.left, ?_⟩ <;>
        (try simp [accTags_cons, accTag, bufTags_cons, bufTag, readTags_cons, readTag,
              roundsFrom, roundsFrom_concat, AccPC.phase, Ev.isClose, List.countP_cons,
              List.count_cons, IdleMode, ActiveMode, ActivePhase, h3, h4, h6, h7, m4, m5])
      · exact h2
      · omega
    · obtain ⟨c, ch, rpc, a1, a2, a3, a4, a5, a6, a7, a8⟩ := h8
      simp [ActivePhase] at a7
  | select => simp [step] at hstep
  | readCase r => simp [step] at hstep
  | sendReadMore => simp [step] at hstep
  | exited => simp [step] at hstep
  | panicked => simp [step] at hstep

/-- The invariant is kept by every move. -/
theorem Inv.next {st st1 : State} {inp : Input} (hinv : Inv st)
    (hstep : step st inp = some st1) : Inv st1 := by
  cases inp with
  | acceptReturns ret => exact hinv.acceptReturns hstep
  | selectAccept opened closed => exact hinv.selectAccept hstep
  | readReturns i data err => exact hinv.readReturns hstep
  | selectRead i => exact hinv.selectRead hstep
  | handleRead written => exact hinv.handleRead hstep
  | deliverReadMore i closed => exact hinv.deliverReadMore hstep
  | deliverAcceptMore => exact hinv.deliverAcceptMore hstep

/-- The invariant is kept by every sequence of moves. -/
theorem Inv.afterRun {inps : List Input} {st st1 : State} (hinv : Inv st)
    (hrun : run st inps = some st1) : Inv st1 := by
  induction inps generalizing st with
  | nil =>
    simp only [TcpToSerial.run, Option.some.injEq] at hrun
    exact hrun ▸ hinv
  | cons inp rest ih =>
    simp only [TcpToSerial.run] at hrun
    cases hs : TcpToSerial.step st inp with
    | none => simp [hs] at hrun
    | some st2 =>
      rw [hs] at hrun
      exact ih (hinv.next hs) hrun

/-- The invariant holds in every reachable state. -/
theorem Inv.of_reachable {st : State} (hr : Reachable st) : Inv st := by
  obtain ⟨inps, hrun⟩ := hr
  exact Inv.init.afterRun hrun

/-- Lines 99-105 do not assign `currentConnection`. -/
theorem readCase_connection (s : Supervisor) (buf : List Byte) (r : readResult)
    (written : Option Err) :
    (readCase s buf r written).1.currentConnection = s.currentConnection := by
  unfold readCase
  split
  · rfl
  · split
    · rfl
    · split
      · rfl
      · split <;> rfl

/-- No move changes a non-nil `currentConnection`. -/
theorem step_keeps_connection {st st1 : State} {inp : Input} {c : Conn} (hinv : Inv st)
    (hcc : st.sup.currentConnection = some c) (hstep : step st inp = some st1) :
    st1.sup.currentConnection = some c := by
  obtain ⟨sup, pc, buf, acc, readers, trace⟩ := st
  obtain ⟨cc, crm, ce, se, sp, mc⟩ := sup
  obtain ⟨h1, h2, h3, h4, h5, h6, h7, h9, h8⟩ := hinv
  simp only at hcc h1
  subst hcc h1
  rcases h8 with h8 | h8
  · obtain ⟨m1, m2, m3, m4, m5⟩ := h8
    simp at m1
  · obtain ⟨c0, ch, rpc, a1, a2, a3, a4, a5, a6, a7, a8⟩ := h8
    simp only at a1 a2 a3 a4 a5 a6 a7 a8
    subst a2 a3 a4
    cases inp with
    | acceptReturns ret => simp [step] at hstep
    | selectAccept opened closed => cases pc <;> simp [step] at hstep
    | readReturns i data err =>
      cases i with
      | succ j => simp [step] at hstep
      | zero =>
        cases rpc <;> simp [step] at hstep
        obtain ⟨_, _, rfl⟩ := hstep
        rfl
    | selectRead i =>
      cases i with
      | succ j => simp [step] at hstep
      | zero =>
        cases rpc <;> cases pc <;> simp [step] at hstep
        obtain ⟨_, rfl⟩ := hstep
        rfl
    | handleRead written =>
      cases pc <;> simp [step] at hstep
      obtain ⟨_, rfl⟩ := hstep
      exact readCase_connection _ _ _ _
    | deliverReadMore i closed =>
      cases pc <;> simp [step] at hstep
      have hse := a8 (by simp)
      subst hse
      cases i with
      | succ j => simp at hstep
      | zero =>
        simp [State.afterTeardown, teardown] at hstep
        obtain ⟨_, _, rfl⟩ := hstep
        rfl
    | deliverAcceptMore =>
      simp [ActivePhase] at a7
      cases pc <;> simp [step] at hstep
      simp at a7

/-- The buffer of line 72 has 1024 bytes. -/
theorem freshBuffer_length : freshBuffer.length = 1024 :=
  List.length_replicate 1024 0

/-- The buffer of `State.active` has 1024 bytes. -/
theorem active_buffer_length : State.active.ip2serialBuffer.length = 1024 :=
  List.length_replicate 1024 0

/-- A read that fits in the buffer leaves its length as it was. -/
theorem readInto_length {buf data : List Byte} (h : data.length ≤ buf.length) :
    (readInto buf data).length = buf.length := by
  simp only [readInto, List.length_append, List.length_drop]
  omega

/-- After a read of `n` bytes, the first `n` bytes of the buffer are the bytes read. -/
theorem take_readInto (buf data : List Byte) :
    (readInto buf data).take data.length = data := by
  simp [readInto]

/-- Running a concatenation of moves is running its parts in turn. -/
theorem run_append (st : State) (a b : List Input) :
    run st (a ++ b) = (run st a).bind fun st1 => run st1 b := by
  induction a generalizing st with
  | nil => simp [run]
  | cons inp rest ih =>
    simp only [List.cons_append, run]
    cases TcpToSerial.step st inp with
    | none => simp
    | some st2 => simp [ih]

/-- One round of forwarding: the four moves are possible and add the four events of the
round; the buffer holds the chunk at its start. -/
theorem run_forwardRound (st : State) (c : Conn) (ch : Chan) (p : Port) (data : List Byte)
    (hpc : st.pc = SupPC.select)
    (hreaders : st.readers = [{ src := some c, readMore := ch, pc := ReadPC.reading }])
    (hmore : st.sup.currentReadMore = some ch) (hport : st.sup.serialPort = some p)
    (herr : st.sup.connectionError = none) (hlen : data.length ≤ st.ip2serialBuffer.length) :
    run st (forwardRound data)
      = some { st with
          sup := { st.sup with serialError := none },
          ip2serialBuffer := readInto st.ip2serialBuffer data,
          trace := st.trace ++ roundEvents ch p data } := by
  obtain ⟨sup, pc, buf, acc, readers, trace⟩ := st
  obtain ⟨cc, crm, ce, se, sp, mc⟩ := sup
  simp only at hpc hreaders hmore hport herr hlen
  subst hpc hreaders hmore hport herr
  have hb : ¬ ((data.length : Int) < 0 ∨ buf.length < data.length) := by omega
  simp [run, forwardRound, step, SupPC.live, hlen, hb, readCase, readInto,
    State.afterTeardown, teardown, readProc_received, roundEvents]

/-! ## Single iterations of the supervisor loop -/

/-- C4: in every state, Idle ones included, an accept event with a connection whose
`serial.OpenPort` call returns an error makes the iteration start no reader, close the
accepted connection once,
send once on `acceptMore` and end at the top of the loop with `currentConnection` nil and
the process alive, whatever `Close` returns. -/
theorem serial_open_failure_recovers (s : Supervisor) (buf : List Byte) (c : Conn)
    (env : Env) (e : Err) (hopen : env.opened.2 = some e) :
    (loopIteration s buf (Selected.accept { conn := some c, err := none }) env).pc
        = SupPC.select
      ∧ (loopIteration s buf (Selected.accept { conn := some c, err := none }) env).events
        = [Ev.openPort env.opened, Ev.log ("Failed to open serial port: " ++ e),
           Ev.log "Closing current connection...", Ev.close c env.closed,
           (match env.closed with
            | some ce => Ev.log ("Failed to close the current connection: " ++ ce)
            | none => Ev.log "Current connection successfully closed."),
           Ev.acceptMore]
      ∧ ((loopIteration s buf (Selected.accept { conn := some c, err := none }) env).events.filter
          Ev.isGo) = []
      ∧ ((loopIteration s buf (Selected.accept { conn := some c, err := none }) env).events.filter
          Ev.isClose) = [Ev.close c env.closed]
      ∧ ((loopIteration s buf (Selected.accept { conn := some c, err := none }) env).events.count
          Ev.acceptMore) = 1
      ∧ ((loopIteration s buf (Selected.accept { conn := some c, err := none }) env).events.filter
          Ev.isFatal) = []
      ∧ (loopIteration s buf (Selected.accept { conn := some c, err := none }) env).sup.currentConnection
        = none := by
  obtain ⟨opened, written, closed⟩ := env
  obtain ⟨port, oerr⟩ := opened
  simp only at hopen
  subst hopen
  cases closed <;>
    simp [loopIteration, acceptCase, finishIteration, teardown, Ev.isGo, Ev.isClose,
      Ev.isFatal]

/-- Witness of C4: the serial device is busy and `Close` itself fails. -/
theorem serial_open_failure_recovers_witness :
    (loopIteration State.init.sup State.init.ip2serialBuffer
        (Selected.accept { conn := some 7, err := none })
        { opened := (none, some "busy"), written := none, closed := some "reset" }).events.count
          Ev.acceptMore = 1 :=
  (serial_open_failure_recovers State.init.sup State.init.ip2serialBuffer 7
    { opened := (none, some "busy"), written := none, closed := some "reset" } "busy"
    rfl).2.2.2.2.1

/-- C2, as the code behaves: a read event that carries an error ends the process through
`log.Fatalf`, in every state; the connection is not closed, nothing is sent on
`acceptMore`, and the variables are left as they were. So when the client of the active
connection sends "AB" and disconnects, "AB" is written and then the process has exited,
with no call of `Close`, no send on `acceptMore` and no further move. -/
theorem read_error_exits (s : Supervisor) (buf : List Byte) (n : Int) (e : Err) (env : Env) :
    loopIteration s buf (Selected.read { bytesRead := n, err := some e }) env
      = { sup := s, pc := SupPC.exited,
          events := [Ev.fatal ("Error reading from connection: " ++ e)] }
    ∧ ∃ st, run State.active
          (forwardRound [65, 66]
            ++ [Input.readReturns 0 [] (some "EOF"), Input.selectRead 0, Input.handleRead none])
        = some st
      ∧ st.pc = SupPC.exited
      ∧ serialPayloads st.trace = [[65, 66]]
      ∧ st.trace.countP Ev.isClose = 0
      ∧ st.trace.count Ev.acceptMore = 0
      ∧ st.sup.currentConnection = some 7
      ∧ ∀ inp, step st inp = none := by
  refine ⟨by simp [loopIteration, readCase], ?_⟩
  refine ⟨{ State.active with
      pc := SupPC.exited,
      ip2serialBuffer := readInto freshBuffer [65, 66],
      readers := [{ src := some 7, readMore := 0, pc := ReadPC.waiting }],
      trace := State.active.trace ++ roundEvents 0 3 [65, 66]
        ++ [Ev.readReturn 0 [] (some "EOF"), Ev.readSend 0 { bytesRead := 0, err := some "EOF" },
            Ev.fatal "Error reading from connection: EOF"] },
    ?_, rfl, rfl, rfl, rfl, rfl, ?_⟩
  · rw [run_append, run_forwardRound State.active 7 0 3 [65, 66] rfl rfl rfl rfl rfl
      (by rw [active_buffer_length]; decide)]
    simp [run, step, SupPC.live, State.active, readCase]
    simp [readInto]
  · intro inp
    cases inp <;> rfl

/-- C6, as the code behaves: when the serial port is open and the read event carries the
bytes `data` without an error, a failing serial write ends the process through
`log.Fatalf`; the connection is not closed and nothing is sent on `acceptMore` or on
`currentReadMore`. So when the client of the active connection sends ten bytes and the
serial write fails, the process has exited, with no call of `Close`, no send on
`acceptMore` and no further move. -/
theorem write_error_exits (s : Supervisor) (p : Port) (buf data : List Byte) (e : Err)
    (env : Env) :
    loopIteration { s with serialPort := some p } (readInto buf data)
        (Selected.read { bytesRead := data.length, err := none })
        { env with written := some e }
      = { sup := { s with serialPort := some p, serialError := some e },
          pc := SupPC.exited,
          events := [Ev.serialWrite p data (some e),
                     Ev.fatal "Error writing to serial port: %!s(<nil>)"] }
    ∧ ∃ st, run State.active
          [Input.readReturns 0 [1, 2, 3, 4, 5, 6, 7, 8, 9, 10] none, Input.selectRead 0,
           Input.handleRead (some "input/output error")]
        = some st
      ∧ st.pc = SupPC.exited
      ∧ st.trace.countP Ev.isClose = 0
      ∧ st.trace.count Ev.acceptMore = 0
      ∧ st.sup.currentConnection = some 7
      ∧ ∀ inp, step st inp = none := by
  refine ⟨?_, ?_⟩
  · simp [loopIteration, readCase, readInto]
    rw [if_neg (by omega)]
  · refine ⟨{ State.active with
        sup := { State.active.sup with serialError := some "input/output error" },
        pc := SupPC.exited,
        ip2serialBuffer := readInto freshBuffer [1, 2, 3, 4, 5, 6, 7, 8, 9, 10],
        readers := [{ src := some 7, readMore := 0, pc := ReadPC.waiting }],
        trace := State.active.trace
          ++ [Ev.readReturn 0 [1, 2, 3, 4, 5, 6, 7, 8, 9, 10] none,
              Ev.readSend 0 { bytesRead := 10, err := none },
              Ev.serialWrite 3 [1, 2, 3, 4, 5, 6, 7, 8, 9, 10] (some "input/output error"),
              Ev.fatal "Error writing to serial port: %!s(<nil>)"] },
      ?_, rfl, rfl, rfl, rfl, ?_⟩
    · have hl : (10 : Nat) ≤ freshBuffer.length := by rw [freshBuffer_length]; decide
      have hb : ¬ ((10 : Int) < 0
          ∨ ((readInto freshBuffer [1, 2, 3, 4, 5, 6, 7, 8, 9, 10]).length : Int) < 10) := by
        rw [readInto_length (by simpa using hl), freshBuffer_length]
        decide
      simp [run, step, SupPC.live, State.active, readCase, hl, hb]
      simp [readInto, freshBuffer_length]
    · intro inp
      cases inp <;> rfl

/-- C7, as the code behaves: from an Idle state, an accept event that carries an error
only writes a log line: nothing is sent on `acceptMore`, and the variables are left as
they were. When the first call of `listener.Accept()` fails, the process reaches a state
in which the acceptor waits for a grant that no move delivers: no move is possible. -/
theorem accept_error_no_grant (s : Supervisor) (buf : List Byte) (conn : Option Conn)
    (e : Err) (env : Env) :
    loopIteration { s with currentConnection := none } buf
        (Selected.accept { conn := conn, err := some e }) env
      = { sup := { s with currentConnection := none }, pc := SupPC.select,
          events := [Ev.log ("Failed to accept the connection: " ++ e)] }
    ∧ ∃ st, run State.init
          [Input.acceptReturns (Accepted.failed e), Input.selectAccept env.opened env.closed]
        = some st
      ∧ st.pc = SupPC.select ∧ st.acceptor = AccPC.waiting ∧ st.readers = []
      ∧ st.trace.count Ev.acceptMore = 0
      ∧ ∀ inp, step st inp = none := by
  refine ⟨by simp [loopIteration, acceptCase, finishIteration, teardown], ?_⟩
  refine ⟨{ State.init with
      acceptor := AccPC.waiting,
      trace := [Ev.log "Waiting for connection...",
        Ev.acceptReturn { conn := none, err := some e }, Ev.log "Connection accepted",
        Ev.acceptSend { conn := none, err := some e },
        Ev.log ("Failed to accept the connection: " ++ e)] }, ?_, rfl, rfl, rfl, ?_, ?_⟩
  · simp [run, step, State.init, SupPC.live, Accepted.result, acceptCase,
      State.afterTeardown, teardown, spawned]
  · simp [List.count_cons]
  · intro inp
    cases inp <;> simp [step, State.init]

/-- C10: `app.Action` returns the error "Invalid port number: <port>" without calling
`net.Listen` exactly when the port is below 1 or above 65535; for a port from 1 to 65535
it calls `net.Listen` once, on ":<port>". -/
theorem port_validation (port : Int) (listen : String → Option Err) :
    (((appAction port listen).returned = some ("Invalid port number: " ++ toString port)
        ∧ (appAction port listen).listened = []) ↔ (port < 1 ∨ port > 65535))
      ∧ ((1 ≤ port ∧ port ≤ 65535) →
          (appAction port listen).listened = [":" ++ toString port]) := by
  unfold appAction
  by_cases h : port < 1 ∨ port > 65535
  · simp only [h, if_true]
    refine ⟨by simp, ?_⟩
    intro h2
    omega
  · simp only [h, if_false]
    constructor
    · constructor
      · cases listen (":" ++ toString port) <;> simp
      · intro h2
        exact False.elim h2
    · intro _
      cases listen (":" ++ toString port) <;> simp


/-! ## The composed system -/

/-- C1: let a connection be active, its reader about to read, the serial port open, and
let the reader's next reads return the chunks `d1, ..., dk` without error (each no
longer than the buffer, as `src.Read` guarantees), each followed by a serial write that
succeeds. Then the moves of these `k` rounds are all possible, and
they add to the history exactly, for each chunk in turn: the read, the read event with
the chunk's length, one serial write whose payload (the first `ni` bytes of the buffer
after the read) is the chunk itself, and the grant. So the payloads written are the
chunks read, in order, whatever the buffer held before; the process is alive and back
at the `select` with the same reader and connection. -/
theorem forwarding_byte_exact (st : State) (c : Conn) (ch : Chan) (p : Port)
    (chunks : List (List Byte))
    (hpc : st.pc = SupPC.select)
    (hreaders : st.readers = [{ src := some c, readMore := ch, pc := ReadPC.reading }])
    (hmore : st.sup.currentReadMore = some ch) (hport : st.sup.serialPort = some p)
    (herr : st.sup.connectionError = none)
    (hlen : ∀ d ∈ chunks, d.length ≤ st.ip2serialBuffer.length) :
    ∃ st1, run st (forwardRounds chunks) = some st1
      ∧ st1.trace = st.trace ++ roundsEvents ch p chunks
      ∧ serialPayloads st1.trace = serialPayloads st.trace ++ chunks
      ∧ readChunks st1.trace = readChunks st.trace ++ chunks
      ∧ st1.pc = SupPC.select
      ∧ st1.readers = st.readers
      ∧ st1.sup.currentConnection = st.sup.currentConnection
      ∧ st1.sup.serialPort = some p := by
  induction chunks generalizing st with
  | nil =>
    refine ⟨st, rfl, ?_, ?_, ?_, hpc, rfl, rfl, hport⟩
    · simp [roundsEvents]
    · simp
    · simp
  | cons d rest ih =>
    have hd : d.length ≤ st.ip2serialBuffer.length := hlen d (List.mem_cons_self d rest)
    have hround := run_forwardRound st c ch p d hpc hreaders hmore hport herr hd
    obtain ⟨st1, h1, h2, h3, h4, h5, h6, h7, h8⟩ :=
      ih { st with
          sup := { st.sup with serialError := none },
          ip2serialBuffer := readInto st.ip2serialBuffer d,
          trace := st.trace ++ roundEvents ch p d }
        hpc hreaders hmore hport herr
        (by
          intro d1 hd1
          rw [readInto_length hd]
          exact hlen d1 (List.mem_cons_of_mem d hd1))
    refine ⟨st1, ?_, ?_, ?_, ?_, h5, h6, h7, h8⟩
    · rw [forwardRounds, run_append, hround]
      exact h1
    · rw [h2]
      simp [roundsEvents]
    · rw [h3]
      simp [serialPayloads, roundEvents]
    · rw [h4]
      simp [readChunks, roundEvents]

/-- Witness of C1: a client connects and sends "AB" in one read. -/
theorem forwarding_byte_exact_witness :
    ∃ st1, run State.active (forwardRounds [[65, 66]]) = some st1
      ∧ st1.trace = State.active.trace ++ roundsEvents 0 3 [[65, 66]]
      ∧ serialPayloads st1.trace = serialPayloads State.active.trace ++ [[65, 66]]
      ∧ readChunks st1.trace = readChunks State.active.trace ++ [[65, 66]]
      ∧ st1.pc = SupPC.select
      ∧ st1.readers = State.active.readers
      ∧ st1.sup.currentConnection = State.active.sup.currentConnection
      ∧ st1.sup.serialPort = some 3 :=
  forwarding_byte_exact State.active 7 0 3 [[65, 66]] rfl rfl rfl rfl rfl
    (by
      intro d hd
      rw [List.mem_singleton] at hd
      subst hd
      show 2 ≤ (List.replicate 1024 (0 : Byte)).length
      rw [List.length_replicate]
      decide)

/-- C3: in every reachable state, the supervisor can receive an accept event only while
`currentConnection` is nil; while `currentConnection` is non-nil the acceptor is blocked
in its receive on `acceptMore`, the supervisor is not sending on `acceptMore`,
`listener.Accept()` cannot return, and no move changes `currentConnection`; the sends on
`acceptMore`, the pending one included, are as many as the calls of `Close` made by the
block of lines 111-125; at most one reader exists, and it reads from the current
connection and owns `currentReadMore`. -/
theorem at_most_one_active_connection (st : State) (hr : Reachable st) :
    (∀ opened closed st1, step st (Input.selectAccept opened closed) = some st1 →
        st.sup.currentConnection = none)
    ∧ (st.sup.currentConnection ≠ none →
        st.acceptor = AccPC.waiting ∧ st.pc ≠ SupPC.sendAcceptMore
          ∧ ∀ ret, step st (Input.acceptReturns ret) = none)
    ∧ (∀ c inp st1, st.sup.currentConnection = some c → step st inp = some st1 →
        st1.sup.currentConnection = some c)
    ∧ st.trace.count Ev.acceptMore + (if st.pc = SupPC.sendAcceptMore then 1 else 0)
        = st.trace.countP Ev.isClose
    ∧ st.readers.length ≤ 1
    ∧ (∀ rd ∈ st.readers, rd.src = st.sup.currentConnection
        ∧ st.sup.currentReadMore = some rd.readMore ∧ rd.src ≠ none) := by
  have hinv := Inv.of_reachable hr
  refine ⟨?_, ?_, ?_, hinv.closes.symm, ?_, ?_⟩
  · intro opened closed st1 hstep
    rcases hinv.mode with h8 | h8
    · exact h8.1
    · obtain ⟨c, ch0, rpc, a1, a2, a3, a4, a5, a6, a7, a8⟩ := h8
      cases hpc : st.pc <;> simp [step, hpc, a4] at hstep
  · intro hcc
    rcases hinv.mode with h8 | h8
    · exact absurd h8.1 hcc
    · obtain ⟨c, ch0, rpc, a1, a2, a3, a4, a5, a6, a7, a8⟩ := h8
      refine ⟨a4, ?_, ?_⟩
      · intro hpc
        simp [ActivePhase, hpc] at a7
      · intro ret
        simp [step, a4]
  · intro c inp st1 hcc hstep
    exact step_keeps_connection hinv hcc hstep
  · rcases hinv.mode with h8 | h8
    · simp [h8.2.1]
    · obtain ⟨c, ch0, rpc, a1, a2, a3, a4, a5, a6, a7, a8⟩ := h8
      simp [a3]
  · intro rd hrd
    rcases hinv.mode with h8 | h8
    · simp [h8.2.1] at hrd
    · obtain ⟨c, ch0, rpc, a1, a2, a3, a4, a5, a6, a7, a8⟩ := h8
      simp only [a3, List.mem_singleton] at hrd
      subst hrd
      simp [a1, a2]

/-- Witness of C3: the state in which connection 7 is active. -/
theorem at_most_one_active_connection_witness :
    Reachable State.active
    ∧ State.active.trace.count Ev.acceptMore
        + (if State.active.pc = SupPC.sendAcceptMore then 1 else 0)
        = State.active.trace.countP Ev.isClose
    ∧ State.active.readers.length ≤ 1 :=
  ⟨⟨toActive, by rfl⟩,
    (at_most_one_active_connection State.active ⟨toActive, by rfl⟩).2.2.2.1,
    (at_most_one_active_connection State.active ⟨toActive, by rfl⟩).2.2.2.2.1⟩

/-- C5: in every reachable state in which the supervisor is in the `select`,
`currentConnection` is nil and the acceptor offers an accept event with a connection
and no error, and whatever `serialError` holds, if `serial.OpenPort` returns no error then
receiving the event opens the port once, starts one reader on the accepted connection with
a channel that no variable and no reader holds, closes nothing, and leaves the supervisor
in the `select` with `currentConnection` the accepted connection and `serialError` nil;
the loop iteration as a function gives the same variables and events. -/
theorem accept_establishes_session (st : State) (hr : Reachable st) (c : Conn)
    (env : Env) (hpc : st.pc = SupPC.select) (hidle : st.sup.currentConnection = none)
    (hacc : st.acceptor = AccPC.sending { conn := some c, err := none })
    (hopen : env.opened.2 = none) :
    ∃ st1, step st (Input.selectAccept env.opened env.closed) = some st1
      ∧ st1.trace = st.trace ++ [Ev.acceptSend { conn := some c, err := none },
          Ev.openPort env.opened, Ev.goReadProc (some c) st.sup.madeChans]
      ∧ st1.pc = SupPC.select
      ∧ st1.acceptor = AccPC.waiting
      ∧ st1.readers = [{ src := some c, readMore := st.sup.madeChans, pc := ReadPC.reading }]
      ∧ st1.sup = { st.sup with currentConnection := some c,
                                currentReadMore := some st.sup.madeChans,
                                serialPort := env.opened.1, serialError := none,
                                madeChans := st.sup.madeChans + 1 }
      ∧ st.sup.currentReadMore ≠ some st.sup.madeChans
      ∧ loopIteration st.sup st.ip2serialBuffer
          (Selected.accept { conn := some c, err := none }) env
        = { sup := st1.sup, pc := SupPC.select,
            events := [Ev.openPort env.opened, Ev.goReadProc (some c) st.sup.madeChans] } := by
  have hinv := Inv.of_reachable hr
  have hce := hinv.connErr
  have hb := hinv.chanBound
  have hreaders : st.readers = [] := by
    rcases hinv.mode with h8 | h8
    · exact h8.2.1
    · obtain ⟨c, ch0, rpc, a1, a2, a3, a4, a5, a6, a7, a8⟩ := h8
      simp [hidle] at a1
  obtain ⟨sup, pc, buf, acc, readers, trace⟩ := st
  obtain ⟨cc, crm, ce, se, sp, mc⟩ := sup
  obtain ⟨⟨op, oe⟩, written, closed⟩ := env
  simp only at hpc hidle hacc hopen hce hb hreaders
  subst hpc hidle hacc hopen hce hreaders
  refine ⟨{ sup := { currentConnection := some c, currentReadMore := some mc,
                     connectionError := none, serialError := none, serialPort := op,
                     madeChans := mc + 1 },
            pc := SupPC.select, ip2serialBuffer := buf, acceptor := AccPC.waiting,
            readers := [{ src := some c, readMore := mc, pc := ReadPC.reading }],
            trace := trace ++ [Ev.acceptSend { conn := some c, err := none },
              Ev.openPort (op, none), Ev.goReadProc (some c) mc] },
    ?_, ?_, ?_, ?_, ?_, ?_, ?_, ?_⟩
  · simp [step, SupPC.live, acceptCase, State.afterTeardown, teardown, spawned]
  · simp
  · simp
  · simp
  · simp
  · simp
  · intro h
    exact absurd (hb mc h) (Nat.lt_irrefl mc)
  · simp [loopIteration, acceptCase, finishIteration, teardown]

/-- Witness of C5: connection 2 arrives after connection 1 was turned away because the
serial device was busy; `serialError` still holds that error. -/
theorem accept_establishes_session_witness :
    State.retry.sup.serialError = some "busy"
    ∧ ∃ st1, step State.retry (Input.selectAccept (some 3, none) none) = some st1
      ∧ st1.trace = State.retry.trace ++ [Ev.acceptSend { conn := some 2, err := none },
          Ev.openPort (some 3, none), Ev.goReadProc (some 2) State.retry.sup.madeChans]
      ∧ st1.pc = SupPC.select
      ∧ st1.acceptor = AccPC.waiting
      ∧ st1.readers
          = [{ src := some 2, readMore := State.retry.sup.madeChans, pc := ReadPC.reading }]
      ∧ st1.sup = { currentConnection := some 2, currentReadMore := some 1,
                    connectionError := none, serialError := none, serialPort := some 3,
                    madeChans := 2 }
      ∧ State.retry.sup.currentReadMore ≠ some State.retry.sup.madeChans
      ∧ loopIteration State.retry.sup State.retry.ip2serialBuffer
          (Selected.accept { conn := some 2, err := none })
          { opened := (some 3, none), written := none, closed := none }
        = { sup := st1.sup, pc := SupPC.select,
            events := [Ev.openPort (some 3, none),
              Ev.goReadProc (some 2) State.retry.sup.madeChans] } :=
  ⟨rfl, accept_establishes_session State.retry ⟨toRetry, by rfl⟩ 2
    { opened := (some 3, none), written := none, closed := none } rfl rfl rfl rfl⟩


/-- C8: in every reachable state, the history of each producer is made of rounds taken in
order and begun at their first phase. The acceptor's rounds are: `listener.Accept()`
returns, the accept event passes to the supervisor, the grant passes over `acceptMore`;
the acceptor stands at the phase its history has reached. The rounds of the reader that
owns a channel are: `src.Read` returns, the read event passes to the supervisor, the grant
passes over that channel. The rounds of the shared buffer are: a read returns, the read
event passes to the supervisor, the serial write returns without error, the supervisor
grants the next read; the supervisor is blocked in the send of line 106 exactly when the
third phase is the last one passed. A producer returns from its receive exactly when the
channel is closed, and none has returned. While the supervisor handles a read event every
reader waits for its grant, and when the supervisor sends a grant its receiver waits
for it. -/
theorem strict_handoff (st : State) (hr : Reachable st) :
    roundsFrom 3 0 (accTags st.trace) = true
    ∧ (accTags st.trace).length % 3 = st.acceptor.phase
    ∧ (∀ ch, roundsFrom 3 0 (readTags ch st.trace) = true)
    ∧ roundsFrom 4 0 (bufTags st.trace) = true
    ∧ ((bufTags st.trace).length % 4 = 3 ↔ st.pc = SupPC.sendReadMore)
    ∧ (∀ ok, acceptFunc_received ok = AccPC.returned ↔ ok = false)
    ∧ (∀ ok, readProc_received ok = ReadPC.returned ↔ ok = false)
    ∧ st.acceptor ≠ AccPC.returned
    ∧ (∀ rd ∈ st.readers, rd.pc ≠ ReadPC.returned)
    ∧ (∀ r, st.pc = SupPC.readCase r → ∀ rd ∈ st.readers, rd.pc = ReadPC.waiting)
    ∧ (st.pc = SupPC.sendReadMore →
        ∃ rd, st.readers = [rd] ∧ rd.pc = ReadPC.waiting
          ∧ st.sup.currentReadMore = some rd.readMore)
    ∧ (st.pc = SupPC.sendAcceptMore → st.acceptor = AccPC.waiting) := by
  have hinv := Inv.of_reachable hr
  obtain ⟨h1, h2, h3, h4, h5, h6, h7, h9, h8⟩ := hinv
  refine ⟨h3, h4, ?_, h6, ?_, ?_, ?_, ?_, ?_, ?_, ?_, ?_⟩
  · intro ch
    rcases h8 with h8 | h8
    · obtain ⟨m1, m2, m3, m4, m5⟩ := h8
      rw [m4 ch]
      rfl
    · obtain ⟨c, ch0, rpc, a1, a2, a3, a4, a5, a6, a7, a8⟩ := h8
      by_cases hc : ch = ch0
      · rw [hc]
        exact a6
      · rw [a5 ch hc]
        rfl
  · rcases h8 with h8 | h8
    · obtain ⟨m1, m2, m3, m4, m5⟩ := h8
      rw [m5]
      rcases m3 with m3 | m3
      · simp [m3]
      · simp [m3.1]
    · obtain ⟨c, ch0, rpc, a1, a2, a3, a4, a5, a6, a7, a8⟩ := h8
      rcases a7 with a7 | a7 | a7 | a7 | a7
      · simp [a7.1, a7.2.2.1]
      · simp [a7.1, a7.2.2.1]
      · obtain ⟨⟨x, hx⟩, _, b, _⟩ := a7
        simp [hx, b]
      · simp [a7.1, a7.2.2.1]
      · obtain ⟨hx, _, b, _⟩ := a7
        rcases hx with hx | hx <;> simp [hx, b]
  · intro ok
    cases ok <;> simp [acceptFunc_received]
  · intro ok
    cases ok <;> simp [readProc_received]
  · intro hret
    rw [hret] at h4
    simp only [AccPC.phase] at h4
    omega
  · intro rd hrd
    rcases h8 with h8 | h8
    · obtain ⟨m1, m2, m3, m4, m5⟩ := h8
      simp [m2] at hrd
    · obtain ⟨c, ch0, rpc, a1, a2, a3, a4, a5, a6, a7, a8⟩ := h8
      simp only [a3, List.mem_singleton] at hrd
      subst hrd
      rcases a7 with a7 | a7 | a7 | a7 | a7
      · simp [a7.2.1]
      · obtain ⟨_, ⟨x, hx⟩, _⟩ := a7
        simp [hx]
      · simp [a7.2.1]
      · simp [a7.2.1]
      · simp [a7.2.1]
  · intro r hpc rd hrd
    rcases h8 with h8 | h8
    · obtain ⟨m1, m2, m3, m4, m5⟩ := h8
      simp [m2] at hrd
    · obtain ⟨c, ch0, rpc, a1, a2, a3, a4, a5, a6, a7, a8⟩ := h8
      simp only [a3, List.mem_singleton] at hrd
      subst hrd
      rcases a7 with a7 | a7 | a7 | a7 | a7
      · simp [a7.1] at hpc
      · simp [a7.1] at hpc
      · exact a7.2.1
      · exact a7.2.1
      · exact a7.2.1
  · intro hpc
    rcases h8 with h8 | h8
    · obtain ⟨m1, m2, m3, m4, m5⟩ := h8
      simp [hpc] at m3
    · obtain ⟨c, ch0, rpc, a1, a2, a3, a4, a5, a6, a7, a8⟩ := h8
      refine ⟨_, a3, ?_, a2⟩
      rcases a7 with a7 | a7 | a7 | a7 | a7
      · simp [a7.1] at hpc
      · simp [a7.1] at hpc
      · exact a7.2.1
      · exact a7.2.1
      · exact a7.2.1
  · intro hpc
    rcases h8 with h8 | h8
    · obtain ⟨m1, m2, m3, m4, m5⟩ := h8
      rcases m3 with m3 | m3
      · simp [m3] at hpc
      · exact m3.2
    · obtain ⟨c, ch0, rpc, a1, a2, a3, a4, a5, a6, a7, a8⟩ := h8
      exact a4

/-- C9: in every reachable state whose calls of `serial.OpenPort` all returned a nil port
exactly when they returned an error, `serialPort` is non-nil if and only if
`currentConnection` is non-nil; so the port is nil whenever the connection is, and the
port is non-nil whenever a read event is being handled. -/
theorem serial_handle_iff_connection (st : State) (hr : Reachable st)
    (hw : OpensWell st.trace) :
    (st.sup.serialPort ≠ none ↔ st.sup.currentConnection ≠ none)
    ∧ (st.sup.currentConnection = none → st.sup.serialPort = none)
    ∧ (∀ r, st.pc = SupPC.readCase r → st.sup.serialPort ≠ none) := by
  have hinv := Inv.of_reachable hr
  have hp := hinv.port hw
  have hiff : st.sup.serialPort ≠ none ↔ st.sup.currentConnection ≠ none := by
    cases hsp : st.sup.serialPort <;> cases hcc : st.sup.currentConnection <;>
      simp [hsp, hcc] at hp ⊢
  refine ⟨hiff, ?_, ?_⟩
  · intro hcc
    by_contra hsp
    exact (hiff.mp hsp) hcc
  · intro r hpc
    rcases hinv.mode with h8 | h8
    · obtain ⟨m1, m2, m3, m4, m5⟩ := h8
      simp [hpc] at m3
    · obtain ⟨c, ch0, rpc, a1, a2, a3, a4, a5, a6, a7, a8⟩ := h8
      exact hiff.mpr (by simp [a1])


/-- Witness of C8: the state in which a second connection is offered after the first was
turned away. -/
theorem strict_handoff_witness :
    Reachable State.retry ∧ accTags State.retry.trace = [0, 1, 2, 0]
    ∧ roundsFrom 3 0 (accTags State.retry.trace) = true
    ∧ (accTags State.retry.trace).length % 3 = State.retry.acceptor.phase :=
  ⟨⟨toRetry, by rfl⟩, rfl,
    (strict_handoff State.retry ⟨toRetry, by rfl⟩).1,
    (strict_handoff State.retry ⟨toRetry, by rfl⟩).2.1⟩

/-- Witness of C9: after the connection that found the serial device busy was closed,
both variables are nil. -/
theorem serial_handle_iff_connection_witness :
    Reachable State.retry ∧ OpensWell State.retry.trace
    ∧ (State.retry.sup.serialPort ≠ none ↔ State.retry.sup.currentConnection ≠ none) :=
  ⟨⟨toRetry, by rfl⟩, by rfl,
    (serial_handle_iff_connection State.retry ⟨toRetry, by rfl⟩ (by rfl)).1⟩


end TcpToSerial

